import Mathlib

/-!
Verification of the External Generation Job Orchestrator
(`src/services/podcastfy-service.ts`, bundled in `src/types/podcast.ts`).

The service is embedded as a pure state machine:
* `ServiceState` models the `PodcastfyService` instance fields
  (`activeGenerations` map, per-process `killed` flags, fresh-name counters);
* each private/public method becomes a Lean function returning the new state
  together with the ordered list of externally visible effects it performs
  (config staging/unlinking, process spawning and signalling, timer arming,
  broadcasts through the `StreamManager`, warning logs);
* `JSON.parse` (a JavaScript builtin) is modelled by `parseJsonTop`, a strict
  recursive-descent JSON reader restricted to integer numerals and to the
  string escapes the worker protocol uses — all inputs appearing in the
  development stay inside this fragment;
* Node `Buffer.toString/trim/split` become `List Char` operations.

Logging via `logger.info` / `logger.debug` / `logger.error` carries no
specified behaviour and is omitted from the effect trace; `logger.warn`
calls are kept (as `Effect.logWarn`) because the specification talks about
warnings for malformed protocol lines and unknown message kinds.
-/

/-- JavaScript values produced by `JSON.parse`, as used by the worker
protocol (`PythonProgressMessage`).  Numbers are restricted to integers:
the protocol's `percent` field and every literal in this development are
integral. -/
inductive Json where
  | null : Json
  | bool (b : Bool) : Json
  | num (n : Int) : Json
  | str (s : String) : Json
  | arr (xs : List Json) : Json
  | obj (fields : List (String × Json)) : Json

/-- Whitespace accepted between JSON tokens (RFC 8259). -/
def isJsonWs (c : Char) : Bool :=
  c = ' ' || c = '\t' || c = '\n' || c = '\r'

/-- Skip inter-token whitespace. -/
def skipWs (l : List Char) : List Char := l.dropWhile isJsonWs

/-- Body of a JSON string after the opening quote.  Supports the common
escapes; raw control characters are rejected as `JSON.parse` does. -/
def parseStringBody (fuel : Nat) (acc : List Char) (l : List Char) :
    Option (String × List Char) :=
  match fuel, l with
  | _, [] => none
  | 0, _ => none
  | fuel + 1, c :: rest =>
    if c = '"' then some (String.mk acc.reverse, rest)
    else if c = '\\' then
      match rest with
      | [] => none
      | e :: rest2 =>
        if e = '"' then parseStringBody fuel ('"' :: acc) rest2
        else if e = '\\' then parseStringBody fuel ('\\' :: acc) rest2
        else if e = '/' then parseStringBody fuel ('/' :: acc) rest2
        else if e = 'n' then parseStringBody fuel ('\n' :: acc) rest2
        else if e = 't' then parseStringBody fuel ('\t' :: acc) rest2
        else if e = 'r' then parseStringBody fuel ('\r' :: acc) rest2
        else if e = 'b' then parseStringBody fuel ('\x08' :: acc) rest2
        else if e = 'f' then parseStringBody fuel ('\x0c' :: acc) rest2
        else none
    else if c.toNat < 32 then none
    else parseStringBody fuel (c :: acc) rest

/-- Read a run of decimal digits as a natural number. -/
def parseNat (l : List Char) : Option (Nat × List Char) :=
  let ds := l.takeWhile Char.isDigit
  if ds.isEmpty then none
  else some (ds.foldl (fun a c => a * 10 + (c.toNat - 48)) 0, l.drop ds.length)

mutual

/-- Parse one JSON value (fuel-bounded recursive descent). -/
def parseValue : Nat → List Char → Option (Json × List Char)
  | 0, _ => none
  | fuel + 1, l =>
    match skipWs l with
    | [] => none
    | c :: rest =>
      if c = '"' then
        match parseStringBody (rest.length + 1) [] rest with
        | some (s, r) => some (Json.str s, r)
        | none => none
      else if c = 'n' then
        match rest with
        | 'u' :: 'l' :: 'l' :: r => some (Json.null, r)
        | _ => none
      else if c = 't' then
        match rest with
        | 'r' :: 'u' :: 'e' :: r => some (Json.bool true, r)
        | _ => none
      else if c = 'f' then
        match rest with
        | 'a' :: 'l' :: 's' :: 'e' :: r => some (Json.bool false, r)
        | _ => none
      else if c = '-' then
        match parseNat rest with
        | some (n, r) => some (Json.num (-(n : Int)), r)
        | none => none
      else if c.isDigit then
        match parseNat (c :: rest) with
        | some (n, r) => some (Json.num (n : Int), r)
        | none => none
      else if c = '[' then
        parseArrTail fuel rest
      else if c = '{' then
        parseObjTail fuel rest
      else none

/-- After `[`: either an immediate `]` or a nonempty item list. -/
def parseArrTail : Nat → List Char → Option (Json × List Char)
  | 0, _ => none
  | fuel + 1, l =>
    match skipWs l with
    | ']' :: r => some (Json.arr [], r)
    | l2 => parseArrItems fuel l2

/-- One array item, then `,` (more items) or `]`. -/
def parseArrItems : Nat → List Char → Option (Json × List Char)
  | 0, _ => none
  | fuel + 1, l =>
    match parseValue fuel l with
    | none => none
    | some (v, r) =>
      match skipWs r with
      | ',' :: r2 =>
        match parseArrItems fuel r2 with
        | some (Json.arr vs, r3) => some (Json.arr (v :: vs), r3)
        | _ => none
      | ']' :: r2 => some (Json.arr [v], r2)
      | _ => none

/-- After an opening brace: either an immediate closing brace or members. -/
def parseObjTail : Nat → List Char → Option (Json × List Char)
  | 0, _ => none
  | fuel + 1, l =>
    match skipWs l with
    | '}' :: r => some (Json.obj [], r)
    | l2 => parseObjItems fuel l2

/-- One object member `"key": value`, then `,` (more members) or a closing
brace. -/
def parseObjItems : Nat → List Char → Option (Json × List Char)
  | 0, _ => none
  | fuel + 1, l =>
    match skipWs l with
    | '"' :: rest =>
      match parseStringBody (rest.length + 1) [] rest with
      | none => none
      | some (k, r) =>
        match skipWs r with
        | ':' :: r2 =>
          match parseValue fuel r2 with
          | none => none
          | some (v, r3) =>
            match skipWs r3 with
            | ',' :: r4 =>
              match parseObjItems fuel r4 with
              | some (Json.obj fs, r5) => some (Json.obj ((k, v) :: fs), r5)
              | _ => none
            | '}' :: r4 => some (Json.obj [(k, v)], r4)
            | _ => none
        | _ => none
    | _ => none

end

/-- Model of `JSON.parse(line)`: one JSON value followed only by
whitespace; `none` on any syntax error (the `SyntaxError` throw). -/
def parseJsonTop (l : List Char) : Option Json :=
  match parseValue (3 * l.length + 3) l with
  | some (v, r) => if (skipWs r).isEmpty then some v else none
  | none => none

/-- Property access `value.key`: `none` models JavaScript `undefined`
(non-objects have no protocol fields; the last duplicate key wins, as in
`JSON.parse`). -/
def jget (j : Json) (key : String) : Option Json :=
  match j with
  | Json.obj fields => fields.foldl (fun acc f => if f.1 = key then some f.2 else acc) none
  | _ => none

/-- JavaScript truthiness of a parsed value (`NaN` cannot arise here). -/
def jsTruthy : Json → Bool
  | Json.null => false
  | Json.bool b => b
  | Json.num n => n != 0
  | Json.str s => !s.isEmpty
  | Json.arr _ => true
  | Json.obj _ => true

/-- JavaScript `a || b` on an optional field: `undefined`, `null`, `0`,
`""` and `false` select the default. -/
def jsOr (v : Option Json) (d : Json) : Json :=
  match v with
  | some j => if jsTruthy j then j else d
  | none => d

mutual

/-- JavaScript string coercion as used in template literals. -/
def jsToString : Json → String
  | Json.null => "null"
  | Json.bool b => if b then "true" else "false"
  | Json.num n => toString n
  | Json.str s => s
  | Json.arr xs => String.intercalate "," (jsToStringList xs)
  | Json.obj _ => "[object Object]"

/-- Pointwise coercion of array elements. -/
def jsToStringList : List Json → List String
  | [] => []
  | x :: xs => jsToString x :: jsToStringList xs

end

/-- Model of JavaScript `String.prototype.trim` on a character list
(the whitespace classes coincide on the ASCII text this service handles). -/
def trimChars (l : List Char) : List Char :=
  ((l.dropWhile Char.isWhitespace).reverse.dropWhile Char.isWhitespace).reverse

/-- Model of `string.split('\n')`. -/
def splitOnNl : List Char → List (List Char)
  | [] => [[]]
  | c :: rest =>
    if c = '\n' then [] :: splitOnNl rest
    else
      match splitOnNl rest with
      | [] => [[c]]
      | hd :: tl => (c :: hd) :: tl

/-- Join lines with single newlines — used to speak about a byte stream
that contains given newline-separated records. -/
def joinNl : List (List Char) → List Char
  | [] => []
  | [l] => l
  | l :: rest => l ++ '\n' :: joinNl rest

/-- One entry of `activeGenerations` (`interface ActiveGeneration`).
The spawned `ChildProcess` object is represented by an index `processId`
into the process table; `timeoutArmed` records whether `timeoutHandle`
is set. -/
structure ActiveGeneration where
  streamingId : String
  processId : Nat
  configFilePath : Nat
  startTime : Nat
  timeoutArmed : Bool
deriving Repr, DecidableEq

/-- The mutable fields of the `PodcastfyService` singleton.
`processes` maps a process index to its Node `ChildProcess.killed` flag —
per the Node documentation this flag is set once `kill()` successfully
*sends* a signal; it does not indicate that the process has exited.
`nextConfig` and `nextPid` model the fresh `uuidv4()` config filename and
the fresh OS pid; `now` models `Date.now()` at the next call. -/
structure ServiceState where
  activeGenerations : List (String × ActiveGeneration)
  processes : List (Nat × Bool)
  nextConfig : Nat
  nextPid : Nat
  now : Nat
deriving Repr, DecidableEq

/-- Lookup in the `Map` of active generations (keys are unique in a JS
`Map`; well-formed states have `Nodup` keys). -/
def mapGet (k : String) : List (String × ActiveGeneration) → Option ActiveGeneration
  | [] => none
  | (k2, v) :: rest => if k2 = k then some v else mapGet k rest

/-- `Map.set`: replace in place if the key exists, else append. -/
def mapSet (k : String) (v : ActiveGeneration) :
    List (String × ActiveGeneration) → List (String × ActiveGeneration)
  | [] => [(k, v)]
  | (k2, v2) :: rest => if k2 = k then (k, v) :: rest else (k2, v2) :: mapSet k v rest

/-- `Map.delete`: drop the entry for the key, if any. -/
def mapDelete (k : String) :
    List (String × ActiveGeneration) → List (String × ActiveGeneration)
  | [] => []
  | (k2, v2) :: rest => if k2 = k then rest else (k2, v2) :: mapDelete k rest

/-- Read the `killed` flag of a process (absent processes report `false`,
matching a fresh `ChildProcess`). -/
def procKilled (pid : Nat) : List (Nat × Bool) → Bool
  | [] => false
  | (p, k) :: rest => if p = pid then k else procKilled pid rest

/-- Effect of `process.kill(signal)` on the table: the `killed` flag of
that process becomes `true` (the signal is recorded separately in the
effect trace). -/
def procSetKilled (pid : Nat) : List (Nat × Bool) → List (Nat × Bool)
  | [] => []
  | (p, k) :: rest => if p = pid then (p, true) :: rest else (p, k) :: procSetKilled pid rest

/-- POSIX signals the service sends. -/
inductive Sig where
  | SIGTERM : Sig
  | SIGKILL : Sig
deriving Repr, DecidableEq

/-- Payloads broadcast through `StreamManager.broadcast`, restricted to the
fields the specification talks about (timestamps and the constant
`type`/`subtype`/`streaming_id` envelope fields are omitted). -/
inductive OutMsg where
  | progressMsg (progress : Json) (message : String) : OutMsg
  | completedMsg (audioUrl : Json) : OutMsg
  | errorMsg (error : String) : OutMsg

/-- Externally visible actions, in program order: config-file staging and
unlinking, process spawning and signalling, timeout arming/clearing, the
5-second force-kill timer registration, broadcasts, session closing, and
`logger.warn` calls. -/
inductive Effect where
  | stageConfig (path : Nat) : Effect
  | spawnProc (pid : Nat) : Effect
  | armTimeout (id : String) (ms : Nat) : Effect
  | cancelTimeout (id : String) : Effect
  | unlinkConfig (path : Nat) : Effect
  | sendSignal (pid : Nat) (s : Sig) : Effect
  | scheduleKill (pid : Nat) (ms : Nat) : Effect
  | broadcastEv (id : String) (msg : OutMsg) : Effect
  | closeSessionEv (id : String) : Effect
  | logWarn (tag : String) : Effect

/-- `TIMEOUT_MS = 30 * 60 * 1000` — the single absolute per-job deadline. -/
def TIMEOUT_MS : Nat := 30 * 60 * 1000

/-- `cleanupGeneration(streamingId)`: if the id is not in the map, do
nothing; otherwise clear the timeout timer (when armed), unlink the staged
config file (`unlink(...).catch` — failure only logs, modelled as the
unconditional unlink request), and remove the id from the map. -/
def cleanupGeneration (streamingId : String) (s : ServiceState) :
    ServiceState × List Effect :=
  match mapGet streamingId s.activeGenerations with
  | none => (s, [])
  | some g =>
      ({ s with activeGenerations := mapDelete streamingId s.activeGenerations },
       (if g.timeoutArmed then [Effect.cancelTimeout streamingId] else [])
         ++ [Effect.unlinkConfig g.configFilePath])

/-- `handleError(streamingId, errorMessage, errorCode?)`: broadcast one
terminal `error` event — the text is `errorMessage (errorCode)` when the
code is truthy — then run cleanup. -/
def handleError (streamingId : String) (errorMessage : String)
    (errorCode : Option Json) (s : ServiceState) : ServiceState × List Effect :=
  let text :=
    match errorCode with
    | some c => if jsTruthy c then errorMessage ++ " (" ++ jsToString c ++ ")" else errorMessage
    | none => errorMessage
  let r := cleanupGeneration streamingId s
  (r.1, Effect.broadcastEv streamingId (OutMsg.errorMsg text) :: r.2)

/-- `handleCompletion(streamingId, message)`: broadcast the
`podcast_completed` event (audio URL is `message.file_path` or the default
route), broadcast the final `progress: 100` event, run cleanup, and close
the stream session. -/
def handleCompletion (streamingId : String) (message : Json) (s : ServiceState) :
    ServiceState × List Effect :=
  let audioUrl := jsOr (jget message "file_path")
    (Json.str ("/api/podcasts/" ++ streamingId ++ "/audio.m4a"))
  let r := cleanupGeneration streamingId s
  (r.1,
   Effect.broadcastEv streamingId (OutMsg.completedMsg audioUrl)
     :: Effect.broadcastEv streamingId
          (OutMsg.progressMsg (Json.num 100) "Podcast generation complete!")
     :: (r.2 ++ [Effect.closeSessionEv streamingId]))

/-- `handleProgressMessage(streamingId, message)`: dispatch on
`message.type`.  A `progress` message is forwarded with
`progress: message.percent || 50` and text `` `${message.step || 'Processing'}...` ``;
`complete` and `error` take their terminal paths; anything else only logs
a warning. -/
def handleProgressMessage (streamingId : String) (message : Json)
    (s : ServiceState) : ServiceState × List Effect :=
  match jget message "type" with
  | some (Json.str t) =>
    if t = "progress" then
      (s, [Effect.broadcastEv streamingId (OutMsg.progressMsg
             (jsOr (jget message "percent") (Json.num 50))
             (jsToString (jsOr (jget message "step") (Json.str "Processing")) ++ "..."))])
    else if t = "complete" then handleCompletion streamingId message s
    else if t = "error" then
      handleError streamingId
        (jsToString (jsOr (jget message "error") (Json.str "Unknown error from Python script")))
        (jget message "code") s
    else (s, [Effect.logWarn "Unknown progress message type"])
  | _ => (s, [Effect.logWarn "Unknown progress message type"])

/-- Lines of a stdout chunk as the code computes them:
`data.toString('utf8').trim().split('\n').filter(line => line.trim())`. -/
def toLines (data : List Char) : List (List Char) :=
  (splitOnNl (trimChars data)).filter (fun line => !(trimChars line).isEmpty)

/-- The per-line loop of `handleStdoutData`: `JSON.parse` each line and
dispatch it, or log a parse warning and continue with the next line. -/
def processLines (streamingId : String) :
    List (List Char) → ServiceState → ServiceState × List Effect
  | [], s => (s, [])
  | line :: rest, s =>
    let step :=
      match parseJsonTop line with
      | some msg => handleProgressMessage streamingId msg s
      | none => (s, [Effect.logWarn "Failed to parse JSON progress message"])
    let next := processLines streamingId rest step.1
    (next.1, step.2 ++ next.2)

/-- `handleStdoutData(streamingId, data)`. -/
def handleStdoutData (streamingId : String) (data : List Char) (s : ServiceState) :
    ServiceState × List Effect :=
  processLines streamingId (toLines data) s

/-- `handleStderrData(streamingId, data)`: log a warning and forward the
trimmed text as a `progress` event with the sentinel `progress: -1` and
message `` `Debug: ${errorOutput}` ``. -/
def handleStderrData (streamingId : String) (data : List Char) (s : ServiceState) :
    ServiceState × List Effect :=
  let errorOutput := String.mk (trimChars data)
  (s, [Effect.logWarn "Python process stderr",
       Effect.broadcastEv streamingId
         (OutMsg.progressMsg (Json.num (-1)) ("Debug: " ++ errorOutput))])

/-- `generatePodcast(streamingId, options)` on its non-throwing path:
stage a fresh config file, spawn the worker, `Map.set` the new
`ActiveGeneration` (replacing any existing entry for the id), and arm the
30-minute timeout.  There is no already-active check.  The `catch` branch
(filesystem or spawn failure) is not raised by the model. -/
def generatePodcast (streamingId : String) (s : ServiceState) :
    ServiceState × List Effect :=
  let configFilePath := s.nextConfig
  let pid := s.nextPid
  let g : ActiveGeneration :=
    { streamingId := streamingId, processId := pid, configFilePath := configFilePath,
      startTime := s.now, timeoutArmed := true }
  ({ s with
      activeGenerations := mapSet streamingId g s.activeGenerations,
      processes := s.processes ++ [(pid, false)],
      nextConfig := s.nextConfig + 1,
      nextPid := s.nextPid + 1 },
   [Effect.stageConfig configFilePath, Effect.spawnProc pid,
    Effect.armTimeout streamingId TIMEOUT_MS])

/-- `cancelGeneration(streamingId)`: `false` (after a warning log) when
the id is not active; otherwise send SIGTERM (guarded by
`!process.killed`), register the 5-second force-kill timer, run cleanup,
broadcast the cancellation `error` event, and return `true`. -/
def cancelGeneration (streamingId : String) (s : ServiceState) :
    ServiceState × List Effect × Bool :=
  match mapGet streamingId s.activeGenerations with
  | none => (s, [Effect.logWarn "Attempted to cancel non-existent generation"], false)
  | some g =>
    let killEffs :=
      if procKilled g.processId s.processes then []
      else [Effect.sendSignal g.processId Sig.SIGTERM,
            Effect.scheduleKill g.processId 5000]
    let s1 :=
      if procKilled g.processId s.processes then s
      else { s with processes := procSetKilled g.processId s.processes }
    let r := cleanupGeneration streamingId s1
    (r.1,
     killEffs ++ r.2
       ++ [Effect.broadcastEv streamingId (OutMsg.errorMsg "Generation cancelled by user")],
     true)

/-- The body of the 5-second timer registered by `cancelGeneration` and
`handleTimeout`: `if (!activeGeneration.process.killed) kill('SIGKILL')`.
It closes over the same `ChildProcess` object, so it reads the then-current
`killed` flag of the process table. -/
def forceKillFire (pid : Nat) (processes : List (Nat × Bool)) :
    List (Nat × Bool) × List Effect :=
  if procKilled pid processes then (processes, [])
  else (procSetKilled pid processes, [Effect.sendSignal pid Sig.SIGKILL])

/-- `handleProcessExit(streamingId, code, signal)`: ignored when the id has
already been cleaned up; a nonzero exit code with no terminal event seen
becomes a `PROCESS_EXIT_ERROR` error; otherwise only cleanup runs. -/
def handleProcessExit (streamingId : String) (code : Option Int)
    (signal : Option String) (s : ServiceState) : ServiceState × List Effect :=
  match mapGet streamingId s.activeGenerations with
  | none => (s, [])
  | some _ =>
    match code with
    | some c =>
      if c ≠ 0 then
        handleError streamingId
          ("Python script exited with code " ++ toString c ++
            (match signal with
             | some sg => if sg.isEmpty then "" else " (signal: " ++ sg ++ ")"
             | none => ""))
          (some (Json.str "PROCESS_EXIT_ERROR")) s
      else (cleanupGeneration streamingId s)
    | none => (cleanupGeneration streamingId s)

/-- `handleTimeout(streamingId)`: log a warning; if the job is still active
and its process unkilled, send SIGTERM and register the 5-second force-kill
timer; then report a terminal error with code `TIMEOUT_ERROR`. -/
def handleTimeout (streamingId : String) (s : ServiceState) :
    ServiceState × List Effect :=
  let killEffs :=
    match mapGet streamingId s.activeGenerations with
    | some g =>
      if procKilled g.processId s.processes then []
      else [Effect.sendSignal g.processId Sig.SIGTERM,
            Effect.scheduleKill g.processId 5000]
    | none => []
  let s1 :=
    match mapGet streamingId s.activeGenerations with
    | some g =>
      if procKilled g.processId s.processes then s
      else { s with processes := procSetKilled g.processId s.processes }
    | none => s
  let r := handleError streamingId "Podcast generation timed out"
    (some (Json.str "TIMEOUT_ERROR")) s1
  (r.1, Effect.logWarn "Podcast generation timed out" :: (killEffs ++ r.2))

/-- The service as constructed: no active generations, no processes. -/
def initState : ServiceState :=
  { activeGenerations := [], processes := [], nextConfig := 0, nextPid := 0, now := 0 }

/-- Broadcast effects (deliveries through `StreamManager.broadcast`). -/
def isBroadcast : Effect → Bool
  | Effect.broadcastEv _ _ => true
  | _ => false

/-- Terminal broadcasts: `error` events and the completion event. -/
def isTerminalBroadcast : Effect → Bool
  | Effect.broadcastEv _ (OutMsg.errorMsg _) => true
  | Effect.broadcastEv _ (OutMsg.completedMsg _) => true
  | _ => false

/-- Config-file deletions. -/
def isUnlink : Effect → Bool
  | Effect.unlinkConfig _ => true
  | _ => false

/-- Process-termination actions (signals sent and force-kill timers
registered) — the escalation path. -/
def isSignalEff : Effect → Bool
  | Effect.sendSignal _ _ => true
  | Effect.scheduleKill _ _ => true
  | _ => false

/-- A chunk line that survives the code's trim/split pipeline unchanged:
nonempty, newline-free, and fixed by `trim`. -/
def plainLine (l : List Char) : Bool :=
  !l.isEmpty && !(decide ('\n' ∈ l)) && decide (trimChars l = l)

/-- Does `message.type` equal the string `progress`? -/
def typeIsProgress (j : Json) : Bool :=
  match jget j "type" with
  | some (Json.str t) => t == "progress"
  | _ => false

/-- Does `message.type` name one of the three handled kinds? -/
def knownType (j : Json) : Bool :=
  match jget j "type" with
  | some (Json.str t) => t == "progress" || t == "complete" || t == "error"
  | _ => false

/-- A well-formed newline-terminated `progress` record occupying one line. -/
def goodProgressLine (l : List Char) : Bool :=
  plainLine l &&
    (match parseJsonTop l with
     | some j => typeIsProgress j
     | none => false)

/-- Lines whose handling leaves the service state unchanged: unparsable
lines (only a warning) and `progress` messages (only a broadcast). -/
def neutralLine (l : List Char) : Bool :=
  match parseJsonTop l with
  | some j => typeIsProgress j
  | none => true

/-- The single effect produced for a neutral line: the forwarded progress
event when the line parses, the parse warning otherwise. -/
def lineEffect (streamingId : String) (l : List Char) : Effect :=
  match parseJsonTop l with
  | some j => Effect.broadcastEv streamingId (OutMsg.progressMsg
      (jsOr (jget j "percent") (Json.num 50))
      (jsToString (jsOr (jget j "step") (Json.str "Processing")) ++ "..."))
  | none => Effect.logWarn "Failed to parse JSON progress message"

/-- The protocol messages decoded from one stdout chunk, in line order. -/
def decodedOf (data : List Char) : List Json :=
  (toLines data).filterMap parseJsonTop

/-- State with the single job `j` started (process 0, config file 0). -/
def sStarted : ServiceState := (generatePodcast "j" initState).1

/-- The active entry for job `j` in `sStarted`. -/
def g0 : ActiveGeneration :=
  { streamingId := "j", processId := 0, configFilePath := 0,
    startTime := 0, timeoutArmed := true }

/-- One stdout chunk carrying two terminal `error` records. -/
def errChunk : List Char :=
  "\x7b\"type\":\"error\",\"error\":\"boom\"\x7d\n\x7b\"type\":\"error\",\"error\":\"boom2\"\x7d".toList

/-- First half of a `progress` record split across two chunks. -/
def fragA : List Char := "\x7b\"type\":\"prog".toList

/-- Second half of the split record, carrying the terminating newline. -/
def fragB : List Char := "ress\",\"percent\":10\x7d\n".toList

/-- A complete one-line `progress` record with `percent: 10`. -/
def progressLine10 : List Char :=
  "\x7b\"type\":\"progress\",\"percent\":10\x7d".toList

/-- A line that is not JSON at all. -/
def badLine : List Char := "oops".toList

/-- A decoded message with an unhandled kind. -/
def unknownMsg : Json := Json.obj [("type", Json.str "status")]

/-- A decoded `progress` message reporting `percent: 0`. -/
def percentZeroMsg : Json :=
  Json.obj [("type", Json.str "progress"), ("percent", Json.num 0)]
/-- A `dropWhile` that preserves length is the identity. -/
theorem dropWhile_len_eq {p : Char → Bool} :
    ∀ (l : List Char), (l.dropWhile p).length = l.length → l.dropWhile p = l := by
  intro l h
  induction l with
  | nil => simp
  | cons a t ih =>
    by_cases hp : p a = true
    · exfalso
      rw [List.dropWhile_cons, if_pos hp] at h
      have hle := (List.dropWhile_suffix (l := t) p).length_le
      simp only [h] at hle
      simp at hle
    · rw [List.dropWhile_cons, if_neg hp]

/-- A trim-fixed list is `dropWhile`-fixed at both ends. -/
theorem trim_fixed_parts {l : List Char} (h : trimChars l = l) :
    l.dropWhile Char.isWhitespace = l ∧
    l.reverse.dropWhile Char.isWhitespace = l.reverse := by
  unfold trimChars at h
  have hlenA := (List.dropWhile_suffix (l := l) Char.isWhitespace).length_le
  have hlenB := (List.dropWhile_suffix (l := (l.dropWhile Char.isWhitespace).reverse)
    Char.isWhitespace).length_le
  have hlen : ((l.dropWhile Char.isWhitespace).reverse.dropWhile Char.isWhitespace).length
      = l.length := by
    rw [← List.length_reverse (((l.dropWhile Char.isWhitespace).reverse.dropWhile
      Char.isWhitespace)), h]
  rw [List.length_reverse] at hlenB
  have hA : (l.dropWhile Char.isWhitespace).length = l.length := by omega
  have hAfix := dropWhile_len_eq l hA
  constructor
  · exact hAfix
  · rw [hAfix] at h hlen
    have := dropWhile_len_eq l.reverse (by rw [hlen, List.length_reverse])
    exact this

/-- `dropWhile` does not enter a fixed nonempty prefix. -/
theorem dropWhile_append_of_fixed {p : Char → Bool} {l r : List Char}
    (hne : l ≠ []) (h : l.dropWhile p = l) : (l ++ r).dropWhile p = l ++ r := by
  cases l with
  | nil => exact absurd rfl hne
  | cons a t =>
    have hp : ¬(p a = true) := by
      intro hpa
      rw [List.dropWhile_cons, if_pos hpa] at h
      have hle := (List.dropWhile_suffix (l := t) p).length_le
      rw [h] at hle
      simp at hle
    rw [List.cons_append, List.dropWhile_cons, if_neg hp]

/-- Unfolding `joinNl` over a cons with a nonempty tail. -/
theorem joinNl_cons (l : List Char) (b : List Char) (t : List (List Char)) :
    joinNl (l :: b :: t) = l ++ '\n' :: joinNl (b :: t) := rfl

/-- A join of nonempty lines is nonempty. -/
theorem joinNl_ne_nil {l : List Char} {ls : List (List Char)} (hl : l ≠ []) :
    joinNl (l :: ls) ≠ [] := by
  cases ls with
  | nil => exact hl
  | cons b t =>
    rw [joinNl_cons]
    cases l with
    | nil => exact absurd rfl hl
    | cons a t2 => simp

/-- Trimming is the identity on a join of nonempty trim-fixed lines. -/
theorem trim_join : ∀ (ls : List (List Char)),
    (∀ l ∈ ls, l ≠ [] ∧ trimChars l = l) → trimChars (joinNl ls) = joinNl ls := by
  intro ls
  induction ls with
  | nil => intro _; rfl
  | cons l rest ih =>
    intro h
    obtain ⟨hl, hlt⟩ := h l (List.mem_cons_self l rest)
    cases rest with
    | nil => exact hlt
    | cons b t =>
      have hrest : ∀ x ∈ b :: t, x ≠ [] ∧ trimChars x = x :=
        fun x hx => h x (List.mem_cons_of_mem _ hx)
      have ihj := ih hrest
      have hJne : joinNl (b :: t) ≠ [] := joinNl_ne_nil (hrest b (List.mem_cons_self b t)).1
      obtain ⟨hlf, hlr⟩ := trim_fixed_parts hlt
      obtain ⟨hJf, hJr⟩ := trim_fixed_parts ihj
      rw [joinNl_cons]
      unfold trimChars
      have h1 : (l ++ '\n' :: joinNl (b :: t)).dropWhile Char.isWhitespace
          = l ++ '\n' :: joinNl (b :: t) := dropWhile_append_of_fixed hl hlf
      rw [h1]
      have h2 : (l ++ '\n' :: joinNl (b :: t)).reverse
          = (joinNl (b :: t)).reverse ++ '\n' :: l.reverse := by
        rw [List.reverse_append, List.reverse_cons, List.append_assoc]
        simp
      rw [h2]
      have hJrne : (joinNl (b :: t)).reverse ≠ [] := by
        intro he
        exact hJne (by simpa using congrArg List.reverse he)
      rw [dropWhile_append_of_fixed hJrne hJr]
      rw [← h2, List.reverse_reverse]

/-- Splitting a newline-free list yields that single line. -/
theorem splitOnNl_no_nl : ∀ {l : List Char}, '\n' ∉ l → splitOnNl l = [l] := by
  intro l h
  induction l with
  | nil => rfl
  | cons a t ih =>
    have ha : ¬(a = '\n') := fun e => h (e ▸ List.mem_cons_self a t)
    have ht : '\n' ∉ t := fun m => h (List.mem_cons_of_mem _ m)
    rw [splitOnNl, if_neg ha, ih ht]

/-- Splitting after a newline-free prefix peels off that line. -/
theorem splitOnNl_append {l r : List Char} (h : '\n' ∉ l) :
    splitOnNl (l ++ '\n' :: r) = l :: splitOnNl r := by
  induction l with
  | nil =>
    show splitOnNl ('\n' :: r) = [] :: splitOnNl r
    rw [splitOnNl, if_pos rfl]
  | cons a t ih =>
    have ha : ¬(a = '\n') := fun e => h (e ▸ List.mem_cons_self a t)
    have ht : '\n' ∉ t := fun m => h (List.mem_cons_of_mem _ m)
    rw [List.cons_append, splitOnNl, if_neg ha, ih ht]

/-- Splitting inverts joining for newline-free lines. -/
theorem splitOnNl_join : ∀ (ls : List (List Char)), ls ≠ [] →
    (∀ l ∈ ls, '\n' ∉ l) → splitOnNl (joinNl ls) = ls := by
  intro ls
  induction ls with
  | nil => intro h; exact absurd rfl h
  | cons l rest ih =>
    intro _ h
    cases rest with
    | nil => exact splitOnNl_no_nl (h l (List.mem_cons_self l []))
    | cons b t =>
      rw [joinNl_cons, splitOnNl_append (h l (List.mem_cons_self l _))]
      rw [ih (by simp) (fun x hx => h x (List.mem_cons_of_mem _ hx))]
/-- The components of `plainLine`. -/
theorem plainLine_parts {l : List Char} (h : plainLine l = true) :
    l ≠ [] ∧ '\n' ∉ l ∧ trimChars l = l := by
  unfold plainLine at h
  simp only [Bool.and_eq_true, Bool.not_eq_true', decide_eq_false_iff_not,
    decide_eq_true_eq, List.isEmpty_eq_false] at h
  exact ⟨h.1.1, h.1.2, h.2⟩

/-- The code's line pipeline recovers exactly the given plain lines from
their newline join. -/
theorem toLines_join : ∀ (ls : List (List Char)),
    (∀ l ∈ ls, plainLine l = true) → toLines (joinNl ls) = ls := by
  intro ls h
  cases ls with
  | nil => rfl
  | cons a t =>
    have hparts : ∀ l ∈ a :: t, l ≠ [] ∧ '\n' ∉ l ∧ trimChars l = l :=
      fun l hl => plainLine_parts (h l hl)
    unfold toLines
    rw [trim_join (a :: t) (fun l hl => ⟨(hparts l hl).1, (hparts l hl).2.2⟩)]
    rw [splitOnNl_join (a :: t) (by simp) (fun l hl => (hparts l hl).2.1)]
    apply List.filter_eq_self.mpr
    intro x hx
    obtain ⟨hne, _, hfix⟩ := hparts x hx
    rw [hfix]
    simpa using hne

/-- The `progress` branch of the dispatcher. -/
theorem handleProgressMessage_progress {j : Json} (id : String) (s : ServiceState)
    (h : typeIsProgress j = true) :
    handleProgressMessage id j s =
      (s, [Effect.broadcastEv id (OutMsg.progressMsg
            (jsOr (jget j "percent") (Json.num 50))
            (jsToString (jsOr (jget j "step") (Json.str "Processing")) ++ "..."))]) := by
  unfold typeIsProgress at h
  unfold handleProgressMessage
  cases hjt : jget j "type" with
  | none => rw [hjt] at h; exact absurd h (by simp)
  | some v =>
    rw [hjt] at h
    cases v with
    | str t =>
      have ht : t = "progress" := by
        have := h
        simpa using this
      subst ht
      rfl
    | null => exact absurd h (by simp)
    | bool b => exact absurd h (by simp)
    | num n => exact absurd h (by simp)
    | arr xs => exact absurd h (by simp)
    | obj fs => exact absurd h (by simp)

/-- Processing neutral lines leaves the state unchanged and produces one
effect per line, in order. -/
theorem processLines_neutral (id : String) :
    ∀ (ls : List (List Char)) (s : ServiceState),
      (∀ l ∈ ls, neutralLine l = true) →
      processLines id ls s = (s, ls.map (lineEffect id)) := by
  intro ls
  induction ls with
  | nil => intro s _; rfl
  | cons a t ih =>
    intro s h
    have ha := h a (List.mem_cons_self a t)
    have ht : ∀ l ∈ t, neutralLine l = true := fun l hl => h l (List.mem_cons_of_mem _ hl)
    unfold neutralLine at ha
    cases hp : parseJsonTop a with
    | none =>
      simp only [processLines, hp, ih s ht, List.map_cons]
      unfold lineEffect
      rw [hp]
      simp
    | some j =>
      rw [hp] at ha
      simp only [processLines, hp, handleProgressMessage_progress id s ha, ih s ht,
        List.map_cons]
      unfold lineEffect
      rw [hp]
      simp

/-- A list of parsable lines decodes to one message per line. -/
theorem filterMap_parse_length : ∀ (ls : List (List Char)),
    (∀ l ∈ ls, (parseJsonTop l).isSome = true) →
    (ls.filterMap parseJsonTop).length = ls.length := by
  intro ls h
  induction ls with
  | nil => rfl
  | cons a t ih =>
    have ha := h a (List.mem_cons_self a t)
    have ht : ∀ l ∈ t, (parseJsonTop l).isSome = true :=
      fun l hl => h l (List.mem_cons_of_mem _ hl)
    rw [List.filterMap_cons]
    cases hp : parseJsonTop a with
    | none => rw [hp] at ha; simp at ha
    | some j => simp [ih ht]
/-- A key that is absent from the association list. -/
theorem mapGet_eq_none_iff (k : String) :
    ∀ (l : List (String × ActiveGeneration)),
      mapGet k l = none ↔ k ∉ l.map Prod.fst := by
  intro l
  induction l with
  | nil => simp [mapGet]
  | cons p rest ih =>
    obtain ⟨k2, v⟩ := p
    by_cases hk : k2 = k
    · subst hk
      simp [mapGet]
    · simp [mapGet, hk, ih, Ne.symm hk]

/-- Setting a key makes it retrievable. -/
theorem mapGet_mapSet_self (k : String) (v : ActiveGeneration) :
    ∀ (l : List (String × ActiveGeneration)), mapGet k (mapSet k v l) = some v := by
  intro l
  induction l with
  | nil => simp [mapSet, mapGet]
  | cons p rest ih =>
    obtain ⟨k2, v2⟩ := p
    by_cases hk : k2 = k
    · subst hk; simp [mapSet, mapGet]
    · simp [mapSet, hk, mapGet, ih]

/-- Keys after `Map.set`: unchanged when present, appended when absent. -/
theorem mapSet_keys (k : String) (v : ActiveGeneration) :
    ∀ (l : List (String × ActiveGeneration)),
      (mapSet k v l).map Prod.fst =
        if k ∈ l.map Prod.fst then l.map Prod.fst else l.map Prod.fst ++ [k] := by
  intro l
  induction l with
  | nil => simp [mapSet]
  | cons p rest ih =>
    obtain ⟨k2, v2⟩ := p
    by_cases hk : k2 = k
    · subst hk; simp [mapSet]
    · by_cases hmem : k ∈ rest.map Prod.fst
      · simp [mapSet, hk, ih, hmem, Ne.symm hk]
      · simp [mapSet, hk, ih, hmem, Ne.symm hk]

/-- `Map.set` preserves key uniqueness. -/
theorem mapSet_nodup_keys {k : String} {v : ActiveGeneration}
    {l : List (String × ActiveGeneration)} (h : (l.map Prod.fst).Nodup) :
    ((mapSet k v l).map Prod.fst).Nodup := by
  rw [mapSet_keys]
  by_cases hmem : k ∈ l.map Prod.fst
  · simpa [hmem] using h
  · rw [if_neg hmem]
    rw [List.nodup_append]
    refine ⟨h, List.nodup_singleton k, ?_⟩
    intro a ha hb
    simp only [List.mem_singleton] at hb
    subst hb
    exact hmem ha

/-- After `Map.delete` the key is gone (keys are unique). -/
theorem mapGet_mapDelete_self (k : String) :
    ∀ (l : List (String × ActiveGeneration)), (l.map Prod.fst).Nodup →
      mapGet k (mapDelete k l) = none := by
  intro l
  induction l with
  | nil => intro _; rfl
  | cons p rest ih =>
    intro hnd
    obtain ⟨k2, v⟩ := p
    simp only [List.map_cons, List.nodup_cons] at hnd
    by_cases hk : k2 = k
    · subst hk
      simp only [mapDelete, if_pos rfl]
      exact (mapGet_eq_none_iff k2 rest).mpr hnd.1
    · simp only [mapDelete, if_neg hk, mapGet]
      exact ih hnd.2

/-- A successfully signalled process reads back as `killed`. -/
theorem procKilled_procSetKilled (pid : Nat) :
    ∀ (ps : List (Nat × Bool)), pid ∈ ps.map Prod.fst →
      procKilled pid (procSetKilled pid ps) = true := by
  intro ps
  induction ps with
  | nil => intro h; simp at h
  | cons p rest ih =>
    intro h
    obtain ⟨q, b⟩ := p
    by_cases hq : q = pid
    · subst hq; simp [procSetKilled, procKilled]
    · simp only [List.map_cons, List.mem_cons] at h
      rcases h with h | h
      · exact absurd h.symm hq
      · simp [procSetKilled, hq, procKilled, ih h]

/-- Cleanup never touches the process table. -/
theorem cleanupGeneration_processes (id : String) (s : ServiceState) :
    (cleanupGeneration id s).1.processes = s.processes := by
  unfold cleanupGeneration
  cases mapGet id s.activeGenerations <;> rfl

/-- Error handling never touches the process table. -/
theorem handleError_processes (id m : String) (c : Option Json) (s : ServiceState) :
    (handleError id m c s).1.processes = s.processes := by
  unfold handleError
  exact cleanupGeneration_processes id s
/-- Behaviour of `cleanupGeneration` on an active job. -/
theorem cleanupGeneration_spec (id : String) (s : ServiceState) (g : ActiveGeneration)
    (hg : mapGet id s.activeGenerations = some g) :
    cleanupGeneration id s =
      ({ s with activeGenerations := mapDelete id s.activeGenerations },
       (if g.timeoutArmed then [Effect.cancelTimeout id] else [])
         ++ [Effect.unlinkConfig g.configFilePath]) := by
  unfold cleanupGeneration
  rw [hg]

/-- Behaviour of `cancelGeneration` on an active job whose process has not
been signalled yet. -/
theorem cancelGeneration_spec (id : String) (s : ServiceState) (g : ActiveGeneration)
    (hg : mapGet id s.activeGenerations = some g)
    (hk : procKilled g.processId s.processes = false) :
    cancelGeneration id s =
      ({ s with processes := procSetKilled g.processId s.processes,
                activeGenerations := mapDelete id s.activeGenerations },
       [Effect.sendSignal g.processId Sig.SIGTERM, Effect.scheduleKill g.processId 5000]
         ++ ((if g.timeoutArmed then [Effect.cancelTimeout id] else [])
              ++ [Effect.unlinkConfig g.configFilePath])
         ++ [Effect.broadcastEv id (OutMsg.errorMsg "Generation cancelled by user")],
       true) := by
  unfold cancelGeneration
  rw [hg]
  simp only [hk, Bool.false_eq_true, if_false]
  rw [cleanupGeneration_spec id _ g (by simpa using hg)]

/-- Behaviour of `handleTimeout` on an active job whose process has not
been signalled yet. -/
theorem handleTimeout_spec (id : String) (s : ServiceState) (g : ActiveGeneration)
    (hg : mapGet id s.activeGenerations = some g)
    (hk : procKilled g.processId s.processes = false) :
    handleTimeout id s =
      ({ s with processes := procSetKilled g.processId s.processes,
                activeGenerations := mapDelete id s.activeGenerations },
       Effect.logWarn "Podcast generation timed out"
         :: Effect.sendSignal g.processId Sig.SIGTERM
         :: Effect.scheduleKill g.processId 5000
         :: Effect.broadcastEv id
              (OutMsg.errorMsg "Podcast generation timed out (TIMEOUT_ERROR)")
         :: ((if g.timeoutArmed then [Effect.cancelTimeout id] else [])
              ++ [Effect.unlinkConfig g.configFilePath])) := by
  have htr : jsTruthy (Json.str "TIMEOUT_ERROR") = true := rfl
  have htext : "Podcast generation timed out" ++ " (" ++ jsToString (Json.str "TIMEOUT_ERROR")
      ++ ")" = "Podcast generation timed out (TIMEOUT_ERROR)" := rfl
  unfold handleTimeout handleError
  rw [hg]
  simp only [hk, Bool.false_eq_true, if_false, htr, if_true, htext]
  rw [cleanupGeneration_spec id _ g (by simpa using hg)]
  simp
/-- C9: every chunk of the worker's stderr stream is forwarded to
subscribers as a low-priority progress event with the fixed sentinel
percent value -1 and the trimmed text embedded after `Debug: `, preceded
only by a logged warning — never discarded and never fed to the structured
protocol parser. -/
theorem c9_stderr_forwarded (id : String) (data : List Char) (s : ServiceState) :
    handleStderrData id data s =
      (s, [Effect.logWarn "Python process stderr",
           Effect.broadcastEv id (OutMsg.progressMsg (Json.num (-1))
             ("Debug: " ++ String.mk (trimChars data)))]) := rfl

/-- C10: a decoded worker progress message whose percent field is absent or
equal to 0 is forwarded with progress 50 (the default substituted for any
falsy percent), so a reported percent of 0 is never delivered as 0. -/
theorem c10_percent_falsy_defaults_to_50 (id : String) (s : ServiceState) (j : Json)
    (ht : typeIsProgress j = true)
    (hp : jget j "percent" = none ∨ jget j "percent" = some (Json.num 0)) :
    handleProgressMessage id j s =
      (s, [Effect.broadcastEv id (OutMsg.progressMsg (Json.num 50)
            (jsToString (jsOr (jget j "step") (Json.str "Processing")) ++ "..."))]) := by
  rw [handleProgressMessage_progress id s ht]
  rcases hp with hp | hp <;> rw [hp] <;> rfl

/-- C10 witness: the progress message reporting `percent: 0` is delivered
with progress 50. -/
theorem c10_percent_witness :
    typeIsProgress percentZeroMsg = true ∧
    jget percentZeroMsg "percent" = some (Json.num 0) ∧
    handleProgressMessage "j" percentZeroMsg sStarted =
      (sStarted, [Effect.broadcastEv "j" (OutMsg.progressMsg (Json.num 50)
        (jsToString (jsOr (jget percentZeroMsg "step") (Json.str "Processing")) ++ "..."))]) :=
  ⟨rfl, rfl, c10_percent_falsy_defaults_to_50 "j" sStarted percentZeroMsg rfl (Or.inr rfl)⟩

/-- C3: for an active job, cleanup cancels the armed timeout timer, unlinks
the staged config file exactly once, and removes the job from the active
map; invoking cleanup again for the same id performs none of these effects
and leaves the state unchanged — so each terminal trigger's cleanup runs
at most once. -/
theorem c3_cleanup_exactly_once (s : ServiceState) (id : String) (g : ActiveGeneration)
    (hnd : (s.activeGenerations.map Prod.fst).Nodup)
    (hg : mapGet id s.activeGenerations = some g) :
    (cleanupGeneration id s).2.filter isUnlink = [Effect.unlinkConfig g.configFilePath] ∧
    (g.timeoutArmed = true →
      (cleanupGeneration id s).2 =
        [Effect.cancelTimeout id, Effect.unlinkConfig g.configFilePath]) ∧
    mapGet id (cleanupGeneration id s).1.activeGenerations = none ∧
    cleanupGeneration id (cleanupGeneration id s).1 = ((cleanupGeneration id s).1, []) := by
  have hnone : mapGet id (mapDelete id s.activeGenerations) = none :=
    mapGet_mapDelete_self id s.activeGenerations hnd
  rw [cleanupGeneration_spec id s g hg]
  refine ⟨?_, ?_, ?_, ?_⟩
  · cases harm : g.timeoutArmed <;> simp [isUnlink]
  · intro harm; rw [harm]; rfl
  · simpa using hnone
  · simp [cleanupGeneration, hnone]

/-- C3 witness at job `j` of `sStarted`. -/
theorem c3_cleanup_witness :
    (sStarted.activeGenerations.map Prod.fst).Nodup ∧
    mapGet "j" sStarted.activeGenerations = some g0 ∧
    ((cleanupGeneration "j" sStarted).2.filter isUnlink = [Effect.unlinkConfig 0] ∧
     (g0.timeoutArmed = true →
       (cleanupGeneration "j" sStarted).2 =
         [Effect.cancelTimeout "j", Effect.unlinkConfig 0]) ∧
     mapGet "j" (cleanupGeneration "j" sStarted).1.activeGenerations = none ∧
     cleanupGeneration "j" (cleanupGeneration "j" sStarted).1 =
       ((cleanupGeneration "j" sStarted).1, [])) :=
  ⟨by decide, by decide, c3_cleanup_exactly_once sStarted "j" g0 (by decide) (by decide)⟩

/-- C2 counterexample: job `j` receives one chunk carrying two `error`
records.  The first record takes the terminal transition (broadcast, timer
cancel, unlink, removal from the active map), yet the second record —
arriving after the job has left the active set — still produces a second
terminal `error` broadcast: worker output events are not ignored after a
terminal transition, so two terminal events reach the subscribers. -/
theorem c2_counterexample :
    (handleStdoutData "j" errChunk sStarted).2 =
      [Effect.broadcastEv "j" (OutMsg.errorMsg "boom"),
       Effect.cancelTimeout "j", Effect.unlinkConfig 0,
       Effect.broadcastEv "j" (OutMsg.errorMsg "boom2")] ∧
    ((handleStdoutData "j" errChunk sStarted).2.filter isTerminalBroadcast).length = 2 :=
  ⟨rfl, rfl⟩

/-- C2 (amended): late *exit callbacks* for a job that has already left the
active set are ignored and produce no broadcast and no state change;
worker *output* events carry no such guard (see the counterexample). -/
theorem c2_exit_callbacks_ignored (s : ServiceState) (id : String)
    (code : Option Int) (sg : Option String)
    (h : mapGet id s.activeGenerations = none) :
    handleProcessExit id code sg s = (s, []) := by
  unfold handleProcessExit
  rw [h]

/-- C2 witness: a late nonzero-exit callback for an inactive id is a no-op. -/
theorem c2_exit_witness :
    mapGet "j" initState.activeGenerations = none ∧
    handleProcessExit "j" (some 1) none initState = (initState, []) :=
  ⟨rfl, c2_exit_callbacks_ignored initState "j" (some 1) none rfl⟩

/-- C1 counterexample: starting `job-1` twice does not fail and is not a
no-op — the second call stages a second config file (1), spawns a second
worker process (1), and replaces the existing active-map entry. -/
theorem c1_counterexample :
    (generatePodcast "job-1" (generatePodcast "job-1" initState).1).2 =
      [Effect.stageConfig 1, Effect.spawnProc 1, Effect.armTimeout "job-1" TIMEOUT_MS] ∧
    mapGet "job-1"
        (generatePodcast "job-1" (generatePodcast "job-1" initState).1).1.activeGenerations ≠
      mapGet "job-1" (generatePodcast "job-1" initState).1.activeGenerations :=
  ⟨rfl, by decide⟩

/-- C1 (amended): `generatePodcast` performs no already-running check —
every call, including one for an already-active id, stages a fresh config
file, spawns a fresh worker, and `Map.set`s the entry (replacing any
existing one); only the map-keying guarantees that the active-entry count
per id never exceeds one. -/
theorem c1_start_overwrites (s : ServiceState) (id : String)
    (hnd : (s.activeGenerations.map Prod.fst).Nodup) :
    (generatePodcast id s).2 =
      [Effect.stageConfig s.nextConfig, Effect.spawnProc s.nextPid,
       Effect.armTimeout id TIMEOUT_MS] ∧
    mapGet id (generatePodcast id s).1.activeGenerations =
      some { streamingId := id, processId := s.nextPid, configFilePath := s.nextConfig,
             startTime := s.now, timeoutArmed := true } ∧
    ∀ a, ((generatePodcast id s).1.activeGenerations.map Prod.fst).count a ≤ 1 := by
  refine ⟨rfl, ?_, ?_⟩
  · simp only [generatePodcast]
    exact mapGet_mapSet_self id _ s.activeGenerations
  · intro a
    have hnd2 : (((generatePodcast id s).1.activeGenerations.map Prod.fst)).Nodup := by
      simp only [generatePodcast]
      exact mapSet_nodup_keys hnd
    exact List.nodup_iff_count_le_one.mp hnd2 a

/-- C1 witness: restarting the already-active `j` spawns worker 1 over
worker 0 and replaces the entry, keeping one entry for `j`. -/
theorem c1_start_witness :
    (sStarted.activeGenerations.map Prod.fst).Nodup ∧
    (generatePodcast "j" sStarted).2 =
      [Effect.stageConfig 1, Effect.spawnProc 1, Effect.armTimeout "j" TIMEOUT_MS] ∧
    mapGet "j" (generatePodcast "j" sStarted).1.activeGenerations =
      some { streamingId := "j", processId := 1, configFilePath := 1,
             startTime := 0, timeoutArmed := true } ∧
    ((generatePodcast "j" sStarted).1.activeGenerations.map Prod.fst).count "j" ≤ 1 :=
  ⟨by decide, (c1_start_overwrites sStarted "j" (by decide)).1,
   (c1_start_overwrites sStarted "j" (by decide)).2.1,
   (c1_start_overwrites sStarted "j" (by decide)).2.2 "j"⟩
/-- C7: `cancelGeneration` returns `false` exactly when the id is not in
the active map (and is then a pure no-op apart from a warning log); on an
active job it returns `true`, sends SIGTERM, registers the force-kill
timer, runs the cleanup sequence, broadcasts the terminal cancellation
`error` event, and removes the job — so a second cancel returns `false`. -/
theorem c7_cancel_contract (s : ServiceState) (id : String) :
    (cancelGeneration id s).2.2 = (mapGet id s.activeGenerations).isSome ∧
    (mapGet id s.activeGenerations = none →
      cancelGeneration id s =
        (s, [Effect.logWarn "Attempted to cancel non-existent generation"], false)) ∧
    (∀ g, mapGet id s.activeGenerations = some g →
      procKilled g.processId s.processes = false →
      (s.activeGenerations.map Prod.fst).Nodup →
      (cancelGeneration id s).2.1 =
        [Effect.sendSignal g.processId Sig.SIGTERM, Effect.scheduleKill g.processId 5000]
          ++ ((if g.timeoutArmed then [Effect.cancelTimeout id] else [])
               ++ [Effect.unlinkConfig g.configFilePath])
          ++ [Effect.broadcastEv id (OutMsg.errorMsg "Generation cancelled by user")] ∧
      mapGet id (cancelGeneration id s).1.activeGenerations = none ∧
      (cancelGeneration id (cancelGeneration id s).1).2.2 = false) := by
  refine ⟨?_, ?_, ?_⟩
  · cases h : mapGet id s.activeGenerations <;> simp [cancelGeneration, h]
  · intro h
    unfold cancelGeneration
    rw [h]
  · intro g hg hk hnd
    have hnone : mapGet id (mapDelete id s.activeGenerations) = none :=
      mapGet_mapDelete_self id s.activeGenerations hnd
    rw [cancelGeneration_spec id s g hg hk]
    exact ⟨rfl, by simpa using hnone, by simp [cancelGeneration, hnone]⟩

/-- C7 witness: cancelling active `j` returns `true` with the full effect
sequence; a repeated cancel and a cancel of an unknown id return `false`. -/
theorem c7_cancel_witness :
    mapGet "j" sStarted.activeGenerations = some g0 ∧
    (cancelGeneration "j" sStarted).2.2 = true ∧
    (cancelGeneration "j" sStarted).2.1 =
      [Effect.sendSignal 0 Sig.SIGTERM, Effect.scheduleKill 0 5000]
        ++ ([Effect.cancelTimeout "j"] ++ [Effect.unlinkConfig 0])
        ++ [Effect.broadcastEv "j" (OutMsg.errorMsg "Generation cancelled by user")] ∧
    mapGet "j" (cancelGeneration "j" sStarted).1.activeGenerations = none ∧
    (cancelGeneration "j" (cancelGeneration "j" sStarted).1).2.2 = false ∧
    (cancelGeneration "ghost" initState).2.2 = false :=
  ⟨by decide,
   ((c7_cancel_contract sStarted "j").1).trans (by decide),
   ((c7_cancel_contract sStarted "j").2.2 g0 (by decide) (by decide) (by decide)).1,
   ((c7_cancel_contract sStarted "j").2.2 g0 (by decide) (by decide) (by decide)).2.1,
   ((c7_cancel_contract sStarted "j").2.2 g0 (by decide) (by decide) (by decide)).2.2,
   ((c7_cancel_contract initState "ghost").1).trans (by decide)⟩

/-- C8: the single 30-minute deadline (`TIMEOUT_MS = 1800000`) is armed by
every spawn; when it fires on a still-active job the escalation effects
(SIGTERM plus the 5-second force-kill timer) are exactly those of
cancellation, the job is removed, and the subscribers receive one terminal
error event carrying the distinct code `TIMEOUT_ERROR`, different from the
operator-cancellation message. -/
theorem c8_timeout_contract (s : ServiceState) (id : String) :
    TIMEOUT_MS = 1800000 ∧
    Effect.armTimeout id TIMEOUT_MS ∈ (generatePodcast id s).2 ∧
    (∀ g, mapGet id s.activeGenerations = some g →
      procKilled g.processId s.processes = false →
      (s.activeGenerations.map Prod.fst).Nodup →
      (handleTimeout id s).2 =
        Effect.logWarn "Podcast generation timed out"
          :: Effect.sendSignal g.processId Sig.SIGTERM
          :: Effect.scheduleKill g.processId 5000
          :: Effect.broadcastEv id
               (OutMsg.errorMsg "Podcast generation timed out (TIMEOUT_ERROR)")
          :: ((if g.timeoutArmed then [Effect.cancelTimeout id] else [])
               ++ [Effect.unlinkConfig g.configFilePath]) ∧
      mapGet id (handleTimeout id s).1.activeGenerations = none ∧
      (handleTimeout id s).2.filter isSignalEff =
        (cancelGeneration id s).2.1.filter isSignalEff ∧
      "Podcast generation timed out (TIMEOUT_ERROR)" ≠ "Generation cancelled by user") := by
  refine ⟨rfl, by simp [generatePodcast], ?_⟩
  intro g hg hk hnd
  have hnone : mapGet id (mapDelete id s.activeGenerations) = none :=
    mapGet_mapDelete_self id s.activeGenerations hnd
  rw [handleTimeout_spec id s g hg hk, cancelGeneration_spec id s g hg hk]
  refine ⟨rfl, by simpa using hnone, ?_, by decide⟩
  cases harm : g.timeoutArmed <;> simp [isSignalEff]

/-- C8 witness: the spawn of `j` arms the 30-minute deadline, and its
timeout produces the `TIMEOUT_ERROR` terminal event with the cancellation
escalation effects. -/
theorem c8_timeout_witness :
    mapGet "j" sStarted.activeGenerations = some g0 ∧
    Effect.armTimeout "j" TIMEOUT_MS ∈ (generatePodcast "j" sStarted).2 ∧
    (handleTimeout "j" sStarted).2 =
      Effect.logWarn "Podcast generation timed out"
        :: Effect.sendSignal 0 Sig.SIGTERM
        :: Effect.scheduleKill 0 5000
        :: Effect.broadcastEv "j"
             (OutMsg.errorMsg "Podcast generation timed out (TIMEOUT_ERROR)")
        :: ([Effect.cancelTimeout "j"] ++ [Effect.unlinkConfig 0]) ∧
    mapGet "j" (handleTimeout "j" sStarted).1.activeGenerations = none ∧
    (handleTimeout "j" sStarted).2.filter isSignalEff =
      (cancelGeneration "j" sStarted).2.1.filter isSignalEff :=
  ⟨by decide,
   (c8_timeout_contract sStarted "j").2.1,
   ((c8_timeout_contract sStarted "j").2.2 g0 (by decide) (by decide) (by decide)).1,
   ((c8_timeout_contract sStarted "j").2.2 g0 (by decide) (by decide) (by decide)).2.1,
   ((c8_timeout_contract sStarted "j").2.2 g0 (by decide) (by decide) (by decide)).2.2.1⟩

/-- C6 (code bug): both termination paths register the 5-second force-kill
timer, but its body tests `ChildProcess.killed`, which Node sets to `true`
as soon as the SIGTERM was successfully *sent* — not when the process
exits.  So when the timer fires, the check always sees `killed = true` and
SIGKILL is never issued, even if the worker ignored SIGTERM and is still
running; the escalation promised by the grace window cannot happen. -/
theorem c6_forcekill_skipped (s : ServiceState) (id : String) (g : ActiveGeneration)
    (hg : mapGet id s.activeGenerations = some g)
    (hmem : g.processId ∈ s.processes.map Prod.fst)
    (hk : procKilled g.processId s.processes = false) :
    Effect.scheduleKill g.processId 5000 ∈ (cancelGeneration id s).2.1 ∧
    procKilled g.processId (cancelGeneration id s).1.processes = true ∧
    forceKillFire g.processId (cancelGeneration id s).1.processes =
      ((cancelGeneration id s).1.processes, []) ∧
    Effect.scheduleKill g.processId 5000 ∈ (handleTimeout id s).2 ∧
    procKilled g.processId (handleTimeout id s).1.processes = true ∧
    forceKillFire g.processId (handleTimeout id s).1.processes =
      ((handleTimeout id s).1.processes, []) := by
  have hkill := procKilled_procSetKilled g.processId s.processes hmem
  rw [cancelGeneration_spec id s g hg hk, handleTimeout_spec id s g hg hk]
  refine ⟨by simp, by simpa using hkill, ?_, by simp, by simpa using hkill, ?_⟩
  · unfold forceKillFire
    simp [hkill]
  · unfold forceKillFire
    simp [hkill]

/-- C6 witness: cancelling `j` schedules the force-kill timer, yet firing
it sends no SIGKILL because the `killed` flag is already set. -/
theorem c6_forcekill_witness :
    mapGet "j" sStarted.activeGenerations = some g0 ∧
    0 ∈ sStarted.processes.map Prod.fst ∧
    procKilled 0 sStarted.processes = false ∧
    (Effect.scheduleKill 0 5000 ∈ (cancelGeneration "j" sStarted).2.1 ∧
     procKilled 0 (cancelGeneration "j" sStarted).1.processes = true ∧
     forceKillFire 0 (cancelGeneration "j" sStarted).1.processes =
       ((cancelGeneration "j" sStarted).1.processes, []) ∧
     Effect.scheduleKill 0 5000 ∈ (handleTimeout "j" sStarted).2 ∧
     procKilled 0 (handleTimeout "j" sStarted).1.processes = true ∧
     forceKillFire 0 (handleTimeout "j" sStarted).1.processes =
       ((handleTimeout "j" sStarted).1.processes, [])) :=
  ⟨by decide, by decide, by decide,
   c6_forcekill_skipped sStarted "j" g0 (by decide) (by decide) (by decide)⟩
/-- C4 counterexample: the bytes
`\x7b"type":"progress","percent":10\x7d\n` decode to exactly one event when
they arrive in a single chunk, but to zero events (two parse warnings)
when split across two chunks — the parser keeps no partial-line buffer, so
the decoded-event count does depend on chunk boundaries. -/
theorem c4_counterexample :
    ((handleStdoutData "j" (fragA ++ fragB) sStarted).2.filter isBroadcast).length = 1 ∧
    (((handleStdoutData "j" fragA sStarted).2
        ++ (handleStdoutData "j" fragB (handleStdoutData "j" fragA sStarted).1).2).filter
          isBroadcast).length = 0 :=
  ⟨rfl, rfl⟩

/-- C4 (amended): parsing is chunk-local — each chunk is trimmed and split
on newlines, and each resulting nonblank line is decoded independently, so
N well-formed one-line progress records contained in a single chunk yield
exactly N forwarded events in order; a record split across chunks is not
decoded (see the counterexample). -/
theorem c4_chunk_local_parsing (id : String) (s : ServiceState) (ls : List (List Char))
    (h : ∀ l ∈ ls, goodProgressLine l = true) :
    handleStdoutData id (joinNl ls) s = (s, ls.map (lineEffect id)) ∧
    ((ls.map (lineEffect id)).filter isBroadcast).length = ls.length := by
  have hplain : ∀ l ∈ ls, plainLine l = true := by
    intro l hl
    have hg := h l hl
    unfold goodProgressLine at hg
    exact ((Bool.and_eq_true _ _).mp hg).1
  have hneutral : ∀ l ∈ ls, neutralLine l = true := by
    intro l hl
    have hg := h l hl
    unfold goodProgressLine at hg
    have h2 := ((Bool.and_eq_true _ _).mp hg).2
    unfold neutralLine
    cases hp : parseJsonTop l with
    | none => rfl
    | some j => rw [hp] at h2; exact h2
  constructor
  · unfold handleStdoutData
    rw [toLines_join ls hplain, processLines_neutral id ls s hneutral]
  · have hbr : ∀ e ∈ ls.map (lineEffect id), isBroadcast e = true := by
      intro e he
      obtain ⟨l, hl, rfl⟩ := List.mem_map.mp he
      have hg := h l hl
      unfold goodProgressLine at hg
      have h2 := ((Bool.and_eq_true _ _).mp hg).2
      unfold lineEffect
      cases hp : parseJsonTop l with
      | none => rw [hp] at h2; simp at h2
      | some j => rfl
    rw [List.filter_eq_self.mpr hbr, List.length_map]

/-- C4 witness: a single chunk holding one well-formed progress record
yields exactly one forwarded event. -/
theorem c4_chunk_witness :
    goodProgressLine progressLine10 = true ∧
    handleStdoutData "j" (joinNl [progressLine10]) sStarted =
      (sStarted, [progressLine10].map (lineEffect "j")) ∧
    (([progressLine10].map (lineEffect "j")).filter isBroadcast).length = 1 :=
  ⟨rfl,
   (c4_chunk_local_parsing "j" sStarted [progressLine10] (by decide)).1,
   (c4_chunk_local_parsing "j" sStarted [progressLine10] (by decide)).2⟩

/-- C5: within a chunk, a malformed line followed by N well-formed lines
yields exactly the N decoded messages, in order — the malformed line
produces one logged warning and does not abort the loop; and a decoded
message with an unhandled kind produces a warning and no event. -/
theorem c5_parser_resilience :
    (∀ (bad : List Char) (ls : List (List Char)),
      plainLine bad = true → parseJsonTop bad = none →
      (∀ l ∈ ls, plainLine l = true ∧ (parseJsonTop l).isSome = true) →
      decodedOf (joinNl (bad :: ls)) = ls.filterMap parseJsonTop ∧
      (ls.filterMap parseJsonTop).length = ls.length) ∧
    (∀ (id : String) (s : ServiceState) (bad : List Char) (ls : List (List Char)),
      plainLine bad = true → parseJsonTop bad = none →
      (∀ l ∈ ls, goodProgressLine l = true) →
      handleStdoutData id (joinNl (bad :: ls)) s =
        (s, Effect.logWarn "Failed to parse JSON progress message"
              :: ls.map (lineEffect id))) ∧
    (∀ (id : String) (s : ServiceState) (j : Json), knownType j = false →
      handleProgressMessage id j s = (s, [Effect.logWarn "Unknown progress message type"])) := by
  refine ⟨?_, ?_, ?_⟩
  · intro bad ls hbp hbn h
    have hplain : ∀ l ∈ bad :: ls, plainLine l = true := by
      intro l hl
      rcases List.mem_cons.mp hl with rfl | hl
      · exact hbp
      · exact (h l hl).1
    constructor
    · unfold decodedOf
      rw [toLines_join (bad :: ls) hplain, List.filterMap_cons, hbn]
    · exact filterMap_parse_length ls (fun l hl => (h l hl).2)
  · intro id s bad ls hbp hbn h
    have hplain : ∀ l ∈ bad :: ls, plainLine l = true := by
      intro l hl
      rcases List.mem_cons.mp hl with rfl | hl
      · exact hbp
      · have hg := h l hl
        unfold goodProgressLine at hg
        exact ((Bool.and_eq_true _ _).mp hg).1
    have hneutral : ∀ l ∈ bad :: ls, neutralLine l = true := by
      intro l hl
      rcases List.mem_cons.mp hl with rfl | hl
      · unfold neutralLine
        rw [hbn]
      · have hg := h l hl
        unfold goodProgressLine at hg
        have h2 := ((Bool.and_eq_true _ _).mp hg).2
        unfold neutralLine
        cases hp : parseJsonTop l with
        | none => rfl
        | some j => rw [hp] at h2; exact h2
    unfold handleStdoutData
    rw [toLines_join (bad :: ls) hplain, processLines_neutral id (bad :: ls) s hneutral,
      List.map_cons]
    have hbad : lineEffect id bad = Effect.logWarn "Failed to parse JSON progress message" := by
      unfold lineEffect
      rw [hbn]
    rw [hbad]
  · intro id s j h
    unfold knownType at h
    unfold handleProgressMessage
    cases hjt : jget j "type" with
    | none => rfl
    | some v =>
      rw [hjt] at h
      cases v with
      | str t =>
        simp only [Bool.or_eq_false_iff, beq_eq_false_iff_ne, ne_eq] at h
        simp [h.1.1, h.1.2, h.2]
      | null => rfl
      | bool b => rfl
      | num n => rfl
      | arr xs => rfl
      | obj fs => rfl

/-- C5 witness: the chunk `oops` + one progress record decodes to exactly
that record with a single warning, and the `status` kind is ignored. -/
theorem c5_resilience_witness :
    plainLine badLine = true ∧
    parseJsonTop badLine = none ∧
    goodProgressLine progressLine10 = true ∧
    knownType unknownMsg = false ∧
    decodedOf (joinNl (badLine :: [progressLine10])) =
      [progressLine10].filterMap parseJsonTop ∧
    handleStdoutData "j" (joinNl (badLine :: [progressLine10])) sStarted =
      (sStarted, Effect.logWarn "Failed to parse JSON progress message"
        :: [progressLine10].map (lineEffect "j")) ∧
    handleProgressMessage "j" unknownMsg sStarted =
      (sStarted, [Effect.logWarn "Unknown progress message type"]) :=
  ⟨rfl, rfl, rfl, rfl,
   (c5_parser_resilience.1 badLine [progressLine10] rfl rfl (by decide)).1,
   c5_parser_resilience.2.1 "j" sStarted badLine [progressLine10] rfl rfl (by decide),
   c5_parser_resilience.2.2 "j" sStarted unknownMsg rfl⟩
